import Mathlib

set_option autoImplicit false

/-!
# Verification of the transformer attention-head pruner

Shallow embedding of
`nni/algorithms/compression/pytorch/pruning/transformer_pruner.py` and
`nni/algorithms/compression/pytorch/pruning/transformer_pruning_head_masker.py`.

Tensors are embedded as lists of rationals: a weight matrix is a list of
rows (`Mat`), a bias vector is a `Vec`.  Torch tensors are rectangular;
where a proof needs this we carry an explicit `Rect` hypothesis.
Masks are numeric 0/1 tensors, exactly as in the code
(`torch.gt(...).type_as(weight)`).  Biases are modelled as always present
because the group masking path dereferences `module.bias.data`
unconditionally.
-/

abbrev Vec := List ℚ
abbrev Mat := List (List ℚ)

/-- Number of columns of a (rectangular) matrix. -/
def cols (m : Mat) : ℕ := (m.getD 0 []).length

/-- Rectangularity: every row has the common column count. -/
def Rect (m : Mat) : Prop := ∀ row ∈ m, row.length = cols m

instance (m : Mat) : Decidable (Rect m) := by unfold Rect; infer_instance

/-- `size()` of a 2-D tensor: (number of rows, number of columns). -/
def matShape (m : Mat) : ℕ × ℕ := (m.length, cols m)

/-- All-ones matrix of the same shape as `m` (`torch.ones(weight.size())`). -/
def onesLike (m : Mat) : Mat := m.map (fun row => row.map (fun _ => (1 : ℚ)))

/-- All-ones vector of length `n` (`torch.ones(bias.size())`). -/
def onesVec (n : ℕ) : Vec := List.replicate n 1

/-- Elementwise product of two matrices (`weight * mask_weight`). -/
def elemMul (a b : Mat) : Mat := a.zipWith (fun ra rb => ra.zipWith (· * ·) rb) b

/-- Python `int()` on a rational: truncation toward zero. -/
def pyInt (x : ℚ) : ℤ := if 0 ≤ x then ⌊x⌋ else -⌊-x⌋

/--
A `PrunerModuleWrapper` as the pruner sees it: the wrapped Linear module's
weight and bias, the current masks (`None` before the first mask update),
and the configured sparsity (`wrapper.config['sparsity']`).
-/
structure Wrapper where
  weight : Mat
  bias : Vec
  weight_mask : Option Mat
  bias_mask : Option Vec
  sparsity : ℚ
deriving DecidableEq, Repr

instance : Inhabited Wrapper := ⟨⟨[], [], none, none, 0⟩⟩

/--
A masking group: the four wrappers of one attention layer, in the order
Q projection, K projection, V projection, output projection
(`self.masking_groups[i]`).
-/
structure WeightGroup where
  q : Wrapper
  k : Wrapper
  v : Wrapper
  o : Wrapper
deriving DecidableEq, Repr

instance : Inhabited WeightGroup := ⟨⟨default, default, default, default⟩⟩

/-- A mask record: `{'weight_mask': ..., 'bias_mask': ...}`. -/
structure MaskPair where
  weight_mask : Mat
  bias_mask : Vec
deriving DecidableEq, Repr

instance : Inhabited MaskPair := ⟨⟨[], []⟩⟩

/-- `num_total = weight.size(0) // head_hidden_dim`: heads in a layer. -/
def numHeadsOf (hd : ℕ) (w : Wrapper) : ℕ := w.weight.length / hd

/-- Heads of a group, read off the Q projection. -/
def groupHeads (hd : ℕ) (g : WeightGroup) : ℕ := numHeadsOf hd g.q

/-- The ranking criteria whose maskers are implemented in
`transformer_pruning_head_masker.py` (weight-magnitude based). -/
inductive WeightCriterion where
  | l1_weight
  | l2_weight
deriving DecidableEq, Repr

/-- The flattened weights of head `i`: rows `i*hd .. (i+1)*hd - 1`
(`weight.view([n_heads, -1])`, row `i`). -/
def headWeights (hd : ℕ) (m : Mat) (i : ℕ) : Vec :=
  ((m.drop (i * hd)).take hd).flatten

/--
`L1WeightHeadMasker.get_head_importance_scores` /
`L2WeightHeadMasker.get_head_importance_scores`, score of head `i`:
sum of `|w|` (L1) resp. `w ** 2` (L2) over head `i`'s rows of the raw
`q_proj`/`k_proj`/`v_proj` weights (`module.weight.data`), divided by 3.
-/
def headScore (crit : WeightCriterion) (hd : ℕ) (g : WeightGroup) (i : ℕ) : ℚ :=
  let f : ℚ → ℚ := match crit with
    | .l1_weight => fun x => |x|
    | .l2_weight => fun x => x ^ 2
  (((headWeights hd g.q.weight i).map f).sum
    + ((headWeights hd g.k.weight i).map f).sum
    + ((headWeights hd g.v.weight i).map f).sum) / 3

/-- The per-head importance score tensor (length `n_heads`). -/
def importanceScores (crit : WeightCriterion) (hd : ℕ) (g : WeightGroup) : Vec :=
  (List.range (groupHeads hd g)).map (headScore crit hd g)

/-- `torch.topk(scores, k, largest=False)[0].max()` for `k ≥ 1`:
the `k`-th smallest value of the list. -/
def kthSmallest (l : Vec) (k : ℕ) : ℚ :=
  (l.insertionSort (· ≤ ·)).getD (k - 1) 0

/-- The pruning threshold used by `get_mask_by_importance_ranking`. -/
def pruneThreshold (crit : WeightCriterion) (hd : ℕ) (g : WeightGroup)
    (numPrune : ℕ) : ℚ :=
  kthSmallest (importanceScores crit hd g) numPrune

/-- `torch.gt(importance_scores, threshold)` at head `i`: head `i` is kept. -/
def keepHead (crit : WeightCriterion) (hd : ℕ) (g : WeightGroup)
    (numPrune : ℕ) (i : ℕ) : Bool :=
  decide (pruneThreshold crit hd g numPrune < (importanceScores crit hd g).getD i 0)

/-- The heads selected for pruning: scores not above the threshold. -/
def selectedHeads (crit : WeightCriterion) (hd : ℕ) (g : WeightGroup)
    (numPrune : ℕ) : Finset ℕ :=
  (Finset.range (groupHeads hd g)).filter
    (fun i => ¬ keepHead crit hd g numPrune i = true)

/--
`mask_weight.view(weight.size())`: the Q/K/V weight mask.  Row `r` belongs
to head `r / hd`; the row is all 1 if the head is kept, all 0 otherwise
(`gt(scores, threshold).unsqueeze(-1).expand(...)` then `view` back; under
the validated shapes `n_heads * hd` is the row count of the projection).
-/
def projWeightMask (hd d n : ℕ) (keep : ℕ → Bool) : Mat :=
  (List.range (n * hd)).map
    (fun r => List.replicate d (if keep (r / hd) then (1 : ℚ) else 0))

/-- `mask_bias.view(-1)`: the Q/K/V bias mask; entry `j` belongs to head
`j / hd`. -/
def projBiasMask (hd n : ℕ) (keep : ℕ → Bool) : Vec :=
  (List.range (n * hd)).map (fun j => if keep (j / hd) then (1 : ℚ) else 0)

/-- `mask_bias_proj.expand_as(output_proj.module.weight.data)`: every row of
the output-projection weight mask is the Q/K/V bias mask, so column `c` is
zeroed exactly when bias entry `c` is. -/
def denseWeightMask (oRows : ℕ) (biasMask : Vec) : Mat :=
  List.replicate oRows biasMask

/-- `torch.ones_like(output_proj.module.bias.data)`: the output projection
bias is never masked. -/
def denseBiasMask (oBiasLen : ℕ) : Vec := List.replicate oBiasLen 1

/--
`AttentionHeadMasker.get_mask_by_importance_ranking` restricted to a weight
group: returns `[masks_for_proj, masks_for_proj, masks_for_proj,
masks_for_dense]`.
-/
def get_mask_by_importance_ranking (crit : WeightCriterion) (hd : ℕ)
    (g : WeightGroup) (numPrune : ℕ) : List MaskPair :=
  let n := groupHeads hd g
  let keep := keepHead crit hd g numPrune
  let biasMask := projBiasMask hd n keep
  let masksForProj : MaskPair := ⟨projWeightMask hd (cols g.q.weight) n keep, biasMask⟩
  let masksForDense : MaskPair :=
    ⟨denseWeightMask g.o.weight.length biasMask, denseBiasMask g.o.bias.length⟩
  [masksForProj, masksForProj, masksForProj, masksForDense]

/--
`AttentionHeadMasker._get_current_state`: the base mask (the existing mask,
or all ones when none exists yet), the masked weight `weight * mask_weight`,
and `num_prune = int(num_total * sparsity)`.
-/
def get_current_state (hd : ℕ) (sparsity : ℚ) (w : Wrapper) :
    MaskPair × Mat × ℤ :=
  let maskWeight := w.weight_mask.getD (onesLike w.weight)
  let maskBias := w.bias_mask.getD (onesVec w.bias.length)
  let numTotal : ℕ := numHeadsOf hd w
  (⟨maskWeight, maskBias⟩, elemMul w.weight maskWeight, pyInt (numTotal * sparsity))

/--
`AttentionHeadMasker.calc_mask` for one wrapper: in the degenerate case
(`num_total < 2 or num_prune < 1`) the base mask is returned unchanged
(`Sum.inl`), otherwise the group masks from the importance ranking
(`Sum.inr`).
-/
def masker_calc_mask (crit : WeightCriterion) (hd : ℕ) (sparsity : ℚ)
    (w : Wrapper) (g : WeightGroup) : MaskPair ⊕ List MaskPair :=
  let st := get_current_state hd sparsity w
  let numTotal : ℕ := numHeadsOf hd w
  if numTotal < 2 ∨ st.2.2 < 1 then Sum.inl st.1
  else Sum.inr (get_mask_by_importance_ranking crit hd g st.2.2.toNat)

/-- The `TypeError` Python raises when `_calc_mask` invokes
`masker.calc_mask(sparsity=..., weight_group=...)`: `AttentionHeadMasker.calc_mask`
declares `wrapper` as a required positional parameter with no default, and the
call site never supplies it. -/
def calcMaskTypeError : String :=
  "TypeError: calc_mask() missing 1 required positional argument: 'wrapper'"

/--
`TransformerHeadPruner._calc_mask`: computes
`iter_sparsity = config['sparsity'] / num_iterations`, then calls
`self.masker.calc_mask(sparsity=iter_sparsity, weight_group=weight_group)`.
That call omits the masker's required positional `wrapper` argument, so it
raises a `TypeError` on every invocation, before the masker body (and hence
any mask computation) is reached.
-/
def pruner_calc_mask_group (numIterations : ℕ) (g : WeightGroup) :
    Except String (List MaskPair) :=
  let _iterSparsity := g.q.sparsity / numIterations
  .error calcMaskTypeError

/-- Set a wrapper's masks from a mask record (`setattr(wrapper, mask_type,
mask[mask_type])`, `update_mask` lines 228-232; in per-layer mode this loop
is never reached, in global mode it applies whatever `calc_mask_global`
produced). -/
def setMask (w : Wrapper) (m : MaskPair) : Wrapper :=
  { w with weight_mask := some m.weight_mask, bias_mask := some m.bias_mask }

/-- Assign a four-element mask list to the four wrappers of a group (the
`setattr` loop over one group). -/
def applyMasks (g : WeightGroup) (ms : List MaskPair) : WeightGroup :=
  { q := setMask g.q (ms.getD 0 default)
    k := setMask g.k (ms.getD 1 default)
    v := setMask g.v (ms.getD 2 default)
    o := setMask g.o (ms.getD 3 default) }

/--
`TransformerHeadPruner.update_mask` with `global_sort=False`: iterates over
the masking groups; on the first group, `_calc_mask` raises the `TypeError`
above, which propagates out of `update_mask` before any `setattr` runs, so
every wrapper keeps the masks it had.  With no groups the loop body never
executes and the call returns normally.  Returned: the outcome and the
(unchanged) group state.
-/
def update_mask (numIterations : ℕ) (groups : List WeightGroup) :
    Except String Unit × List WeightGroup :=
  match groups with
  | [] => (.ok (), [])
  | g :: gs => ((pruner_calc_mask_group numIterations g).map (fun _ => ()), g :: gs)

/-! ## Mask structure predicates -/

/-- The effective weight mask of a wrapper: the stored mask, or all ones
when none has been set yet. -/
def effWeightMask (w : Wrapper) : Mat := w.weight_mask.getD (onesLike w.weight)

/-- The effective bias mask of a wrapper. -/
def effBiasMask (w : Wrapper) : Vec := w.bias_mask.getD (onesVec w.bias.length)

/-- Row `r` of `m` is identically zero. -/
def isZeroRow (m : Mat) (r : ℕ) : Prop := ∀ x ∈ m.getD r [], x = (0 : ℚ)

instance (m : Mat) (r : ℕ) : Decidable (isZeroRow m r) := by
  unfold isZeroRow; infer_instance

/-- Column `c` of `m` is identically zero (out-of-range entries read as 1,
so a missing column is not "zeroed"; under `Rect` this never happens). -/
def isZeroCol (m : Mat) (c : ℕ) : Prop := ∀ row ∈ m, row.getD c 1 = (0 : ℚ)

instance (m : Mat) (c : ℕ) : Decidable (isZeroCol m c) := by
  unfold isZeroCol; infer_instance

/--
The structural-consistency shape of a group's masks for a set `S` of pruned
heads: Q, K, V weight masks zero exactly the rows of heads in `S`, their
bias masks zero exactly the entries of heads in `S`, the output projection
weight mask zeros exactly the input columns of heads in `S`, and the output
projection bias mask is all ones.
-/
def headStructured (hd : ℕ) (g : WeightGroup) (S : Finset ℕ) : Prop :=
  (∀ r < g.q.weight.length, (isZeroRow (effWeightMask g.q) r ↔ r / hd ∈ S)
      ∧ (isZeroRow (effWeightMask g.k) r ↔ r / hd ∈ S)
      ∧ (isZeroRow (effWeightMask g.v) r ↔ r / hd ∈ S))
  ∧ (∀ j < g.q.weight.length, ((effBiasMask g.q).getD j 1 = 0 ↔ j / hd ∈ S)
      ∧ ((effBiasMask g.k).getD j 1 = 0 ↔ j / hd ∈ S)
      ∧ ((effBiasMask g.v).getD j 1 = 0 ↔ j / hd ∈ S))
  ∧ (∀ c < g.q.weight.length, isZeroCol (effWeightMask g.o) c ↔ c / hd ∈ S)
  ∧ (∀ x ∈ effBiasMask g.o, x = (1 : ℚ))

instance (hd : ℕ) (g : WeightGroup) (S : Finset ℕ) :
    Decidable (headStructured hd g S) := by
  unfold headStructured; infer_instance

/-- A group's masks are structurally consistent: some set of heads explains
all the zeroed rows and columns. -/
def maskConsistent (hd : ℕ) (g : WeightGroup) : Prop :=
  ∃ S : Finset ℕ, headStructured hd g S

/--
Wellformedness of a validated weight group, as established by
`validate_weight_groups` plus the facts torch guarantees: rectangular
tensors, matching Q/K/V shapes, `output_proj` input width equal to the
Q output width, `head_hidden_dim` dividing the Q output width, biases of
matching lengths, and nondegenerate dimensions.
-/
def GroupWf (hd : ℕ) (g : WeightGroup) : Prop :=
  0 < hd
  ∧ Rect g.q.weight ∧ Rect g.k.weight ∧ Rect g.v.weight ∧ Rect g.o.weight
  ∧ matShape g.k.weight = matShape g.q.weight
  ∧ matShape g.v.weight = matShape g.q.weight
  ∧ cols g.o.weight = g.q.weight.length
  ∧ hd ∣ g.q.weight.length
  ∧ 0 < cols g.q.weight
  ∧ 0 < g.o.weight.length
  ∧ g.q.bias.length = g.q.weight.length
  ∧ g.k.bias.length = g.q.weight.length
  ∧ g.v.bias.length = g.q.weight.length
  ∧ g.o.bias.length = g.o.weight.length

instance (hd : ℕ) (g : WeightGroup) : Decidable (GroupWf hd g) := by
  unfold GroupWf; infer_instance

/-- The heads of a wrapper that are fully masked out: every row of the
head's slice is zero in the effective weight mask. -/
def prunedHeadSetOf (hd : ℕ) (w : Wrapper) : Finset ℕ :=
  (Finset.range (numHeadsOf hd w)).filter
    (fun i => ((List.range hd).all
      (fun j => decide (isZeroRow (effWeightMask w) (i * hd + j)))) = true)

/-! ## Validation and construction -/

/-- One conjunct per assertion of `TransformerHeadPruner.validate_weight_groups`
for a single group (the per-group checks). -/
def groupChecks (hd : ℕ) (g : WeightGroup) : Bool :=
  (matShape g.q.weight = matShape g.k.weight
      ∧ matShape g.k.weight = matShape g.v.weight
    ∧ (matShape g.q.weight).1 = (matShape g.o.weight).2
    ∧ (g.q.sparsity = g.k.sparsity ∧ g.k.sparsity = g.v.sparsity
        ∧ g.v.sparsity = g.o.sparsity)
    ∧ hd ∣ g.q.weight.length : Prop)

/--
`TransformerHeadPruner.validate_weight_groups`: `true` when every assertion
passes, `false` when the sanity check raises.  With `global_sort` on, each
group's sparsity is additionally compared against the first group's
(`sparsity` is bound on the first loop iteration).
-/
def validate_weight_groups (globalSort : Bool) (hd : ℕ)
    (groups : List WeightGroup) : Bool :=
  groups.all (fun g =>
    groupChecks hd g
      && (!globalSort || decide (g.q.sparsity = (groups.headD default).q.sparsity)))

/-- The ranking criteria accepted by the constructor (`MASKER_DICT`). -/
inductive RankingCriteria where
  | l1_weight
  | l2_weight
  | l1_activation
  | l2_activation
  | taylorfo
deriving DecidableEq, Repr

/-- The criteria that run the trainer for calibration before each mask
update. -/
def needsTraining (c : RankingCriteria) : Bool :=
  match c with
  | .l1_activation | .l2_activation | .taylorfo => true
  | _ => false

/-- The pruner's state after construction: the masking groups and the
pruned-head registry `self.pruned_heads` (one set per group, initially
empty). -/
structure PrunerState where
  groups : List WeightGroup
  pruned_heads : List (Finset ℕ)
deriving DecidableEq

/-- The constructor's arguments that the embedded checks consume. -/
structure InitArgs where
  ranking_criteria : RankingCriteria
  global_sort : Bool
  num_iterations : ℕ
  trainer : Option Unit
  optimizer : Option Unit
  head_hidden_dim : ℕ
  groups : List WeightGroup

/-- The config schema accepted by `validate_config`:
`'sparsity': And(float, lambda n: 0 < n < 1)` for every wrapper. -/
def schemaOk (groups : List WeightGroup) : Bool :=
  groups.all (fun g =>
    decide (0 < g.q.sparsity ∧ g.q.sparsity < 1) && decide (0 < g.k.sparsity ∧ g.k.sparsity < 1)
      && decide (0 < g.v.sparsity ∧ g.v.sparsity < 1) && decide (0 < g.o.sparsity ∧ g.o.sparsity < 1))

/--
`TransformerHeadPruner.__init__`, the checks in source order: the config
schema (run by the base `Pruner` constructor), then the trainer/optimizer
assertion (`ranking_criteria` activation- or Taylor-based, **or**
`num_iterations > 1`, requires both), then `validate_weight_groups`.  On
success the state holds the groups and an all-empty `pruned_heads`
registry; any failed check raises before any mask is computed.
-/
def initPruner (a : InitArgs) : Except String PrunerState :=
  if ¬ schemaOk a.groups then .error "config schema: sparsity must be in (0, 1)"
  else if (needsTraining a.ranking_criteria || a.num_iterations > 1)
      && (a.trainer.isNone || a.optimizer.isNone) then
    .error "assert self._trainer is not None / assert self._optimizer is not None"
  else if ¬ validate_weight_groups a.global_sort a.head_hidden_dim a.groups then
    .error "Attention weight group sanity check not passed"
  else .ok ⟨a.groups, List.replicate a.groups.length ∅⟩

/-! ## The compression loop -/

/--
`TransformerHeadPruner.compress` for the weight-based criteria: each
iteration calls `update_mask` first (line 199); the `TypeError` raised
inside `_calc_mask` propagates uncaught (no handler in `compress`), so with
at least one masking group the call aborts during iteration 0, before the
finetuning trainer callback (lines 203-204) or `masker.reset` (line 208)
could run, and `pruned_heads` — which no statement anywhere in the source
ever writes to after its initialization — keeps its initial value.
-/
def compressLoop (numIterations : ℕ) :
    ℕ → PrunerState → Except String Unit × PrunerState
  | 0, s => (.ok (), s)
  | n + 1, s =>
    match update_mask numIterations s.groups with
    | (.error e, groups1) => (.error e, ⟨groups1, s.pruned_heads⟩)
    | (.ok _, groups1) => compressLoop numIterations n ⟨groups1, s.pruned_heads⟩

/-- `compress()` runs the loop for all `num_iterations` rounds. -/
def compress (numIterations : ℕ) (s : PrunerState) :
    Except String Unit × PrunerState :=
  compressLoop numIterations numIterations s

/-- `TransformerHeadPruner.calc_mask`: the inherited per-wrapper entry point
unconditionally raises a `RuntimeError` and touches nothing. -/
def pruner_calc_mask (s : PrunerState) (_wrapper : Wrapper) :
    Except String Unit × PrunerState :=
  (.error "Applications should directly call TransformerHeadPruner's update_mask() method.", s)

/-! ## Global ranking mode

`TransformerHeadPruner._calc_mask_global` computes, in the source, the
overall per-iteration sparsity from the first wrapper's config and
`n_heads_to_prune = int(n_heads_total * overall_sparsity)`, then delegates
the selection to `masker.calc_mask_global`, which is not among the
repository files at hand; the selection itself is modelled from the spec
below. -/

/-- `n_heads_total`: sum over groups of the Q projection's head count. -/
def nHeadsTotal (hd : ℕ) (groups : List WeightGroup) : ℕ :=
  (groups.map (groupHeads hd)).sum

/-- `n_heads_to_prune = int(n_heads_total * overall_sparsity)` with
`overall_sparsity = config['sparsity'] / num_iterations` read off the first
wrapper (from `_calc_mask_global`). -/
def nHeadsToPruneGlobal (hd numIterations : ℕ) (groups : List WeightGroup) : ℤ :=
  pyInt (nHeadsTotal hd groups * ((groups.headD default).q.sparsity / numIterations))

/-- All heads of all groups, tagged `(group index, head index)`, in group
order. -/
def pooledHeads (hd : ℕ) (groups : List WeightGroup) : List (ℕ × ℕ) :=
  (List.range groups.length).flatMap
    (fun gi => (List.range (groupHeads hd (groups.getD gi default))).map
      (fun i => (gi, i)))

/--
Modelled from the spec: `AttentionHeadMasker.calc_mask_global` (not among
the files at hand) pools the importance scores of all heads across all
groups and removes the `n` heads with the lowest scores, one global
threshold, ties resolved by the underlying stable top-k selection order.
Here: sort the pooled heads by score with a stable sort and take the first
`n`.
-/
def globalChosen (hd : ℕ) (sc : ℕ × ℕ → ℚ) (groups : List WeightGroup)
    (n : ℕ) : List (ℕ × ℕ) :=
  ((pooledHeads hd groups).insertionSort (fun a b => sc a ≤ sc b)).take n

/-- Heads removed from group `gi` by the global selection. -/
def globalPrunedCount (hd : ℕ) (sc : ℕ × ℕ → ℚ) (groups : List WeightGroup)
    (n : ℕ) (gi : ℕ) : ℕ :=
  (globalChosen hd sc groups n).countP (fun p => p.1 == gi)

/-! ## Basic lemmas -/

theorem setMask_weight (w : Wrapper) (m : MaskPair) : (setMask w m).weight = w.weight := rfl

theorem setMask_bias (w : Wrapper) (m : MaskPair) : (setMask w m).bias = w.bias := rfl

theorem setMask_sparsity (w : Wrapper) (m : MaskPair) : (setMask w m).sparsity = w.sparsity := rfl

theorem groupHeads_applyMasks (hd : ℕ) (g : WeightGroup) (ms : List MaskPair) :
    groupHeads hd (applyMasks g ms) = groupHeads hd g := rfl

theorem importanceScores_applyMasks (crit : WeightCriterion) (hd : ℕ)
    (g : WeightGroup) (ms : List MaskPair) :
    importanceScores crit hd (applyMasks g ms) = importanceScores crit hd g := by
  simp [importanceScores, headScore, headWeights, applyMasks, setMask,
    groupHeads, numHeadsOf]

theorem keepHead_applyMasks (crit : WeightCriterion) (hd : ℕ)
    (g : WeightGroup) (ms : List MaskPair) :
    keepHead crit hd (applyMasks g ms) = keepHead crit hd g := by
  funext numPrune i
  simp [keepHead, pruneThreshold, kthSmallest, importanceScores_applyMasks]

/-- The masker's mask construction reads only weights, biases and
sparsities, none of which a mask assignment changes: masks rebuilt after an
application are identical to the first build. -/
theorem get_mask_by_importance_ranking_applyMasks (crit : WeightCriterion)
    (hd numPrune : ℕ) (g : WeightGroup) (ms : List MaskPair) :
    get_mask_by_importance_ranking crit hd (applyMasks g ms) numPrune
      = get_mask_by_importance_ranking crit hd g numPrune := by
  simp only [get_mask_by_importance_ranking, groupHeads_applyMasks,
    keepHead_applyMasks]
  rfl

theorem applyMasks_applyMasks (g : WeightGroup) (ms : List MaskPair) :
    applyMasks (applyMasks g ms) ms = applyMasks g ms := by
  simp [applyMasks, setMask]

/--
**C9 (code bug).** The claim describes `update_mask` deterministically
recomputing identical masks from unchanged weights on a second call.  In
the source, no per-layer `update_mask` call ever computes a mask: every
call with at least one group raises the `TypeError` inside `_calc_mask`
(the masker's required `wrapper` argument is never passed) and leaves every
wrapper's mask state untouched — the post-states of the two calls coincide
only because neither call does anything.  The deterministic-recomputation
content the claim relies on does hold of the masker's own mask
construction: it reads only the raw weights, never the previously applied
masks (third conjunct).
-/
theorem update_mask_recomputation_never_happens :
    (∀ (numIterations : ℕ) (groups : List WeightGroup),
      (update_mask numIterations groups).2 = groups)
    ∧ (∀ (numIterations : ℕ) (g : WeightGroup) (gs : List WeightGroup),
      (update_mask numIterations (g :: gs)).1 = .error calcMaskTypeError)
    ∧ (∀ (crit : WeightCriterion) (hd numPrune : ℕ) (g : WeightGroup)
        (ms : List MaskPair),
      get_mask_by_importance_ranking crit hd (applyMasks g ms) numPrune
        = get_mask_by_importance_ranking crit hd g numPrune) := by
  refine ⟨fun numIterations groups => ?_, fun numIterations g gs => rfl,
    fun crit hd numPrune g ms =>
      get_mask_by_importance_ranking_applyMasks crit hd numPrune g ms⟩
  cases groups <;> rfl

/--
**C10.** The inherited per-wrapper `calc_mask` entry point of
`TransformerHeadPruner` unconditionally raises a `RuntimeError` directing
callers to `update_mask`, and leaves the pruner state untouched.
-/
theorem pruner_calc_mask_always_raises (s : PrunerState) (w : Wrapper) :
    (pruner_calc_mask s w).1
        = Except.error
          "Applications should directly call TransformerHeadPruner's update_mask() method."
      ∧ (pruner_calc_mask s w).2 = s :=
  ⟨rfl, rfl⟩

/--
**C8.** Degenerate case: when the layer has fewer than two heads, or the
per-iteration prune count `int(num_total * sparsity)` is below one,
`AttentionHeadMasker.calc_mask` hands back the wrapper's existing mask
unchanged — all ones when no mask has been set yet (line 59) — and the
layer's mask state is indeed unchanged for that iteration.  In this program
the latter holds unconditionally: the per-layer `update_mask` aborts with
the `TypeError` in `_calc_mask` before any mask assignment (and the
degenerate base-mask dict, had it ever arrived, would not be applied — the
assignment loop expects a four-element list), so no wrapper's masks are
ever written.
-/
theorem calc_mask_degenerate_identity (crit : WeightCriterion)
    (hd numIterations : ℕ) (sparsity : ℚ) (w : Wrapper) (g : WeightGroup)
    (groups : List WeightGroup) :
    (numHeadsOf hd w < 2 ∨ (get_current_state hd sparsity w).2.2 < 1 →
      masker_calc_mask crit hd sparsity w g = Sum.inl ⟨effWeightMask w, effBiasMask w⟩)
    ∧ (update_mask numIterations groups).2 = groups := by
  constructor
  · intro h
    simp only [masker_calc_mask, get_current_state, effWeightMask, effBiasMask]
    rw [if_pos]
    exact h
  · cases groups <;> rfl

/-- A one-head layer group (degenerate for pruning). -/
def gDeg : WeightGroup :=
  { q := ⟨[[1]], [1], none, none, 1/2⟩
    k := ⟨[[1]], [1], none, none, 1/2⟩
    v := ⟨[[1]], [1], none, none, 1/2⟩
    o := ⟨[[1]], [1], none, none, 1/2⟩ }

theorem calc_mask_degenerate_identity_witness :
    numHeadsOf 1 gDeg.q < 2
      ∧ masker_calc_mask .l1_weight 1 (1/2) gDeg.q gDeg
          = Sum.inl ⟨[[1]], [1]⟩
      ∧ (update_mask 1 [gDeg]).2 = [gDeg] := by
  refine ⟨by norm_num [numHeadsOf, gDeg], ?_,
    (calc_mask_degenerate_identity .l1_weight 1 1 (1/2) gDeg.q gDeg [gDeg]).2⟩
  rw [(calc_mask_degenerate_identity .l1_weight 1 1 (1/2) gDeg.q gDeg [gDeg]).1
    (Or.inl (by norm_num [numHeadsOf, gDeg]))]
  rfl

/--
**C6 (amended).** The constructor's trainer/optimizer assertion: any
criterion that needs training data (`l1_activation`, `l2_activation`,
`taylorfo`) fails construction when the trainer or the optimizer is null;
a weight-based criterion (`l1_weight`, `l2_weight`) with a single pruning
iteration passes the assertion and construction succeeds with no trainer
and no optimizer.  (With `num_iterations > 1` the same assertion fires for
every criterion, because iterative pruning finetunes between iterations —
this is the one correction to the claim.)
-/
theorem trainer_optimizer_requirement :
    (∀ a : InitArgs, needsTraining a.ranking_criteria = true →
        a.trainer = none ∨ a.optimizer = none →
        schemaOk a.groups = true →
        initPruner a
          = .error "assert self._trainer is not None / assert self._optimizer is not None")
    ∧ (∀ a : InitArgs,
        (a.ranking_criteria = .l1_weight ∨ a.ranking_criteria = .l2_weight) →
        a.num_iterations ≤ 1 →
        schemaOk a.groups = true →
        validate_weight_groups a.global_sort a.head_hidden_dim a.groups = true →
        initPruner a = .ok ⟨a.groups, List.replicate a.groups.length ∅⟩) := by
  constructor
  · intro a hcrit hmiss hschema
    unfold initPruner
    rw [if_neg (by simp [hschema]), if_pos]
    simp only [Bool.and_eq_true, Bool.or_eq_true]
    refine ⟨Or.inl hcrit, ?_⟩
    rcases hmiss with h | h <;> simp [h]
  · intro a hcrit hiter hschema hvalid
    unfold initPruner
    rw [if_neg (by simp [hschema]), if_neg, if_neg (by simp [hvalid])]
    have h1 : needsTraining a.ranking_criteria = false := by
      rcases hcrit with h | h <;> simp [h, needsTraining]
    have h2 : ¬ a.num_iterations > 1 := by omega
    simp [h1, h2]

/-- Constructor arguments that refute the unqualified claim: the weight
criterion `l1_weight` with no trainer and no optimizer, but two pruning
iterations. -/
def c6Args : InitArgs :=
  { ranking_criteria := .l1_weight
    global_sort := false
    num_iterations := 2
    trainer := none
    optimizer := none
    head_hidden_dim := 1
    groups := [gDeg] }

/--
**C6, counterexample to the claim as stated.** Constructing with
`l1_weight`, a null trainer and a null optimizer does *not* always
succeed: with `num_iterations = 2` the constructor's assertion fires even
for a weight-based criterion.
-/
theorem l1_weight_null_trainer_fails_with_iterations :
    initPruner c6Args
      = .error "assert self._trainer is not None / assert self._optimizer is not None" := by
  unfold initPruner
  rw [if_neg (by norm_num [schemaOk, c6Args, gDeg]), if_pos (by norm_num [c6Args])]

theorem trainer_optimizer_requirement_witness :
    needsTraining RankingCriteria.taylorfo = true
      ∧ initPruner { c6Args with ranking_criteria := .taylorfo }
          = .error "assert self._trainer is not None / assert self._optimizer is not None"
      ∧ initPruner { c6Args with num_iterations := 1 }
          = .ok ⟨[gDeg], List.replicate 1 ∅⟩ := by
  refine ⟨rfl, ?_, ?_⟩
  · exact trainer_optimizer_requirement.1 { c6Args with ranking_criteria := .taylorfo }
      rfl (Or.inl rfl) (by norm_num [schemaOk, c6Args, gDeg])
  · exact trainer_optimizer_requirement.2 { c6Args with num_iterations := 1 }
      (Or.inl rfl) (by norm_num)
      (by norm_num [schemaOk, c6Args, gDeg])
      (by norm_num [validate_weight_groups, groupChecks, c6Args, gDeg, matShape, cols])

/--
**C5.** `validate_weight_groups` raises exactly when some group violates
one of its assertions: Q, K, V weight shapes pairwise equal; the output
projection's second weight dimension equal to Q's first; one sparsity
value across the four members; with `global_sort`, one sparsity value
across all groups (each compared to the first group's); and
`head_hidden_dim` dividing Q's output dimension.  A failed validation
means construction never produces a pruner state, so no mask is ever
computed.
-/
theorem validate_weight_groups_spec :
    (∀ (globalSort : Bool) (hd : ℕ) (groups : List WeightGroup),
      validate_weight_groups globalSort hd groups = false ↔
        ∃ g ∈ groups,
          ¬(matShape g.q.weight = matShape g.k.weight
              ∧ matShape g.k.weight = matShape g.v.weight)
          ∨ (matShape g.q.weight).1 ≠ (matShape g.o.weight).2
          ∨ ¬(g.q.sparsity = g.k.sparsity ∧ g.k.sparsity = g.v.sparsity
              ∧ g.v.sparsity = g.o.sparsity)
          ∨ ¬ hd ∣ g.q.weight.length
          ∨ (globalSort = true ∧ g.q.sparsity ≠ (groups.headD default).q.sparsity))
    ∧ (∀ a : InitArgs,
        validate_weight_groups a.global_sort a.head_hidden_dim a.groups = false →
        ∀ st, initPruner a ≠ .ok st) := by
  constructor
  · intro globalSort hd groups
    rw [Bool.eq_false_iff, Ne]
    simp only [validate_weight_groups, List.all_eq_true]
    push_neg
    refine exists_congr fun g => and_congr_right fun _ => ?_
    cases globalSort with
    | false =>
      simp only [ne_eq, Bool.not_false, Bool.true_or, Bool.and_true, groupChecks,
        decide_eq_true_eq, Bool.false_eq_true, false_and, or_false]
      tauto
    | true =>
      simp only [ne_eq, Bool.not_true, Bool.false_or, Bool.and_eq_true, groupChecks,
        decide_eq_true_eq, true_and]
      tauto
  · intro a hval st h
    unfold initPruner at h
    split_ifs at h with h1 h2 h3
    all_goals first
      | exact Except.noConfusion h
      | simp [hval] at h3

/-- A group whose Q and K projection weights have different shapes. -/
def gBadQK : WeightGroup :=
  { q := ⟨[[1],[2]], [1,1], none, none, 1/2⟩
    k := ⟨[[1]], [1], none, none, 1/2⟩
    v := ⟨[[1],[2]], [1,1], none, none, 1/2⟩
    o := ⟨[[1,1],[1,1]], [1,1], none, none, 1/2⟩ }

theorem validate_weight_groups_spec_witness :
    validate_weight_groups false 1 [gBadQK] = false
      ∧ validate_weight_groups false 2 [gDeg] = false
      ∧ ∀ st, initPruner ⟨.l1_weight, false, 1, none, none, 1, [gBadQK]⟩ ≠ .ok st := by
  refine ⟨?_, ?_, ?_⟩
  · exact (validate_weight_groups_spec.1 false 1 [gBadQK]).mpr
      ⟨gBadQK, by simp, Or.inl (by decide)⟩
  · exact (validate_weight_groups_spec.1 false 2 [gDeg]).mpr
      ⟨gDeg, by simp, Or.inr (Or.inr (Or.inr (Or.inl (by decide))))⟩
  · exact validate_weight_groups_spec.2 ⟨.l1_weight, false, 1, none, none, 1, [gBadQK]⟩
      ((validate_weight_groups_spec.1 false 1 [gBadQK]).mpr
        ⟨gBadQK, by simp, Or.inl (by decide)⟩)

/-! ## Importance scores: what they are computed from (C4) -/

/-- The spec's formulation of a per-head projection norm: the sum, over the
head's rows, of the row's summed `f`-values. -/
def specProjHeadNorm (f : ℚ → ℚ) (hd : ℕ) (m : Mat) (i : ℕ) : ℚ :=
  (((m.drop (i * hd)).take hd).map (fun row => (row.map f).sum)).sum

/-- The spec's per-head score formula over the *raw stored* weights:
L1/L2 norms of the head's rows in Q, K and V, averaged over the three. -/
def specRawHeadScore (crit : WeightCriterion) (hd : ℕ) (g : WeightGroup)
    (i : ℕ) : ℚ :=
  let f : ℚ → ℚ := match crit with
    | .l1_weight => fun x => |x|
    | .l2_weight => fun x => x ^ 2
  (specProjHeadNorm f hd g.q.weight i + specProjHeadNorm f hd g.k.weight i
    + specProjHeadNorm f hd g.v.weight i) / 3

/-- A wrapper with the current mask folded into the weight, as the claim's
words (`weight multiplied by the existing mask`) would have it. -/
def maskWrapper (w : Wrapper) : Wrapper :=
  { w with weight := elemMul w.weight (effWeightMask w) }

/-- Following the claim's words for comparison: importance scores computed
from the current *masked* weight values instead of the raw stored weights. -/
def maskedImportanceScores (crit : WeightCriterion) (hd : ℕ)
    (g : WeightGroup) : Vec :=
  importanceScores crit hd
    ⟨maskWrapper g.q, maskWrapper g.k, maskWrapper g.v, maskWrapper g.o⟩

theorem headScore_eq_specRawHeadScore (crit : WeightCriterion) (hd : ℕ)
    (g : WeightGroup) (i : ℕ) :
    headScore crit hd g i = specRawHeadScore crit hd g i := by
  cases crit <;>
    · simp [headScore, specRawHeadScore, specProjHeadNorm, headWeights,
        List.sum_flatten, List.map_flatten, Function.comp]
      rfl

/--
**C4 (amended).** The L1/L2 weight-magnitude importance score of each head
equals the spec's formula — sum of `|w|` (L1) or `w²` (L2) over the head's
rows of the Q, K and V projections, averaged over the three — applied to
the *raw stored* weights (`module.weight.data`), and it depends only on the
Q, K and V weight tensors: it is independent of `output_proj` and of all
existing masks and biases.  (The scorer does not multiply the weights by
the existing mask; the two coincide only when the mask has already been
folded into the stored weights, which is what the wrapper's forward pass
does during training.)
-/
theorem weight_score_from_raw_weights (crit : WeightCriterion) (hd : ℕ)
    (g : WeightGroup) :
    importanceScores crit hd g
        = (List.range (groupHeads hd g)).map (specRawHeadScore crit hd g)
      ∧ (∀ g' : WeightGroup, g'.q.weight = g.q.weight →
          g'.k.weight = g.k.weight → g'.v.weight = g.v.weight →
          importanceScores crit hd g' = importanceScores crit hd g) := by
  constructor
  · exact List.map_congr_left fun i _ => headScore_eq_specRawHeadScore crit hd g i
  · intro g' h1 h2 h3
    simp only [importanceScores, groupHeads, numHeadsOf, h1, h2, h3]
    exact List.map_congr_left fun i _ => by
      simp only [headScore, headWeights, h1, h2, h3]

/-- A group whose existing masks already zero out head 0, while the stored
weights there are nonzero. -/
def gMasked : WeightGroup :=
  { q := ⟨[[1],[2]], [1,1], some [[0],[1]], some [0,1], 1/2⟩
    k := ⟨[[1],[2]], [1,1], some [[0],[1]], some [0,1], 1/2⟩
    v := ⟨[[1],[2]], [1,1], some [[0],[1]], some [0,1], 1/2⟩
    o := ⟨[[1,1],[1,1]], [1,1], some [[0,1],[0,1]], some [1,1], 1/2⟩ }

/--
**C4, counterexample to the claim as stated.** With an existing mask that
zeroes head 0, the code's importance scores (computed from the raw stored
weights) differ from scores computed from the masked weights: the claim's
"weight multiplied by the existing mask" is not what the code evaluates.
-/
theorem importance_scores_ignore_masks :
    importanceScores .l1_weight 1 gMasked = [1, 2]
      ∧ maskedImportanceScores .l1_weight 1 gMasked = [0, 2]
      ∧ importanceScores .l1_weight 1 gMasked
          ≠ maskedImportanceScores .l1_weight 1 gMasked := by
  refine ⟨?_, ?_, ?_⟩ <;>
    norm_num [importanceScores, maskedImportanceScores, headScore, headWeights,
      gMasked, groupHeads, numHeadsOf, elemMul, effWeightMask, maskWrapper,
      List.range_succ]

theorem weight_score_from_raw_weights_witness :
    gMasked.q.weight = gMasked.q.weight
      ∧ importanceScores .l1_weight 1 gMasked
          = (List.range (groupHeads 1 gMasked)).map (specRawHeadScore .l1_weight 1 gMasked)
      ∧ importanceScores .l1_weight 1
            ⟨gMasked.q, gMasked.k, gMasked.v, gDeg.o⟩
          = importanceScores .l1_weight 1 gMasked :=
  ⟨rfl, (weight_score_from_raw_weights .l1_weight 1 gMasked).1,
    (weight_score_from_raw_weights .l1_weight 1 gMasked).2
      ⟨gMasked.q, gMasked.k, gMasked.v, gDeg.o⟩ rfl rfl rfl⟩

/-! ## The pruned-head registry (C7) -/

/-- A two-head layer group; with sparsity 1/2 one head gets pruned. -/
def gTwo : WeightGroup :=
  { q := ⟨[[1],[2]], [5,5], none, none, 1/2⟩
    k := ⟨[[1],[2]], [5,5], none, none, 1/2⟩
    v := ⟨[[1],[2]], [5,5], none, none, 1/2⟩
    o := ⟨[[1,1],[1,1]], [3,3], none, none, 1/2⟩ }

/--
**C7 (code bug).** Nothing in the source ever writes to the `pruned_heads`
registry: it keeps its initial value (one empty set per group) through
every iteration of `compress`.  Worse, with any masking group present,
`compress` never even finishes an iteration: its first `update_mask` call
raises the `TypeError` inside `_calc_mask`, so at the concrete input
(one two-head group, sparsity `1/2`, `l1_weight`, `num_iterations = 1`)
`compress` aborts with the registry still `[∅]` and no head pruned — while
the spec (and the bundled example's speedup step, which feeds
`pruner.pruned_heads` to `_prune_heads`) require the registry to record
the pruned head indices of every group.
-/
theorem pruned_heads_never_recorded :
    (∀ (numIterations : ℕ) (s : PrunerState),
      (compress numIterations s).2.pruned_heads = s.pruned_heads)
    ∧ compress 1 ⟨[gTwo], [∅]⟩
        = (.error calcMaskTypeError, ⟨[gTwo], [∅]⟩) := by
  have hloop : ∀ (numIterations n : ℕ) (s : PrunerState),
      (compressLoop numIterations n s).2.pruned_heads = s.pruned_heads := by
    intro numIterations n
    induction n with
    | zero => intro s; rfl
    | succ k ih =>
      intro s
      cases s with
      | mk groups pruned_heads =>
        cases groups with
        | nil => exact ih ⟨[], pruned_heads⟩
        | cons g gs => rfl
  exact ⟨fun numIterations s => hloop numIterations numIterations s, rfl⟩

/-! ## Structural consistency of the built masks (C1) -/

theorem getD_projWeightMask (hd d n : ℕ) (keep : ℕ → Bool) (r : ℕ)
    (hr : r < n * hd) :
    (projWeightMask hd d n keep).getD r []
      = List.replicate d (if keep (r / hd) then (1 : ℚ) else 0) := by
  unfold projWeightMask
  rw [List.getD_eq_getElem?_getD, List.getElem?_map, List.getElem?_range hr]
  rfl

theorem getD_projBiasMask (hd n : ℕ) (keep : ℕ → Bool) (j : ℕ)
    (hj : j < n * hd) :
    (projBiasMask hd n keep).getD j 1
      = if keep (j / hd) then (1 : ℚ) else 0 := by
  unfold projBiasMask
  rw [List.getD_eq_getElem?_getD, List.getElem?_map, List.getElem?_range hj]
  rfl

theorem isZeroRow_projWeightMask (hd d n : ℕ) (keep : ℕ → Bool) (r : ℕ)
    (hd0 : 0 < d) (hr : r < n * hd) :
    isZeroRow (projWeightMask hd d n keep) r ↔ keep (r / hd) = false := by
  rw [isZeroRow, getD_projWeightMask hd d n keep r hr]
  cases hk : keep (r / hd) with
  | false => simp [List.mem_replicate]
  | true =>
    simp only [if_true, List.mem_replicate]
    constructor
    · intro h
      exact absurd (h 1 ⟨hd0.ne', rfl⟩) one_ne_zero
    · intro h
      cases h

theorem isZeroCol_denseWeightMask (oRows : ℕ) (bm : Vec) (c : ℕ)
    (h0 : 0 < oRows) :
    isZeroCol (denseWeightMask oRows bm) c ↔ bm.getD c 1 = 0 := by
  unfold isZeroCol denseWeightMask
  constructor
  · intro h
    exact h bm (List.mem_replicate.mpr ⟨h0.ne', rfl⟩)
  · intro h row hrow
    rw [List.eq_of_mem_replicate hrow]
    exact h

theorem mem_selectedHeads (crit : WeightCriterion) (hd : ℕ) (g : WeightGroup)
    (numPrune i : ℕ) :
    i ∈ selectedHeads crit hd g numPrune
      ↔ i < groupHeads hd g ∧ keepHead crit hd g numPrune i = false := by
  simp [selectedHeads, Finset.mem_filter, Finset.mem_range]

theorem projBiasMask_zero_iff (hd n : ℕ) (keep : ℕ → Bool) (j : ℕ)
    (hj : j < n * hd) :
    (projBiasMask hd n keep).getD j 1 = 0 ↔ keep (j / hd) = false := by
  rw [getD_projBiasMask hd n keep j hj]
  cases hk : keep (j / hd) <;> simp

/--
The structure of the masks `get_mask_by_importance_ranking` builds, once
assigned to a validated group: they zero out *exactly* the selected heads —
all rows of a selected head in the Q, K and V weight and bias masks, the
corresponding input columns of the output projection's weight mask (the
same index set on both sides) — and the output projection's bias mask is
all ones, never masked.
-/
theorem get_mask_structural (crit : WeightCriterion) (hd numPrune : ℕ)
    (g : WeightGroup) (hWf : GroupWf hd g) :
    headStructured hd
      (applyMasks g (get_mask_by_importance_ranking crit hd g numPrune))
      (selectedHeads crit hd g numPrune) := by
  obtain ⟨hhd, hrq, hrk, hrv, hro, hks, hvs, hoc, hdvd, hqc, hor,
    hqb, hkb, hvb, hob⟩ := hWf
  have hmul : groupHeads hd g * hd = g.q.weight.length :=
    Nat.div_mul_cancel hdvd
  set kp : ℕ → Bool := keepHead crit hd g numPrune with hkp
  have hmem : ∀ i, i < groupHeads hd g * hd →
      (i / hd ∈ selectedHeads crit hd g numPrune ↔ kp (i / hd) = false) := by
    intro i hi
    rw [mem_selectedHeads]
    have hdiv : i / hd < groupHeads hd g :=
      Nat.div_lt_of_lt_mul (by rw [Nat.mul_comm] at hi; exact hi)
    exact ⟨fun h => h.2, fun h => ⟨hdiv, h⟩⟩
  refine ⟨?_, ?_, ?_, ?_⟩
  · intro r hr
    have hr' : r < groupHeads hd g * hd := by
      rw [hmul]
      exact hr
    have hzr : ∀ w : Wrapper, isZeroRow (effWeightMask (setMask w
        ⟨projWeightMask hd (cols g.q.weight) (groupHeads hd g) kp,
          projBiasMask hd (groupHeads hd g) kp⟩)) r ↔ kp (r / hd) = false :=
      fun w => isZeroRow_projWeightMask hd (cols g.q.weight)
        (groupHeads hd g) kp r hqc hr'
    exact ⟨(hzr g.q).trans (hmem r hr').symm, (hzr g.k).trans (hmem r hr').symm,
      (hzr g.v).trans (hmem r hr').symm⟩
  · intro j hj
    have hj' : j < groupHeads hd g * hd := by
      rw [hmul]
      exact hj
    have hzb : ∀ w : Wrapper, (effBiasMask (setMask w
        ⟨projWeightMask hd (cols g.q.weight) (groupHeads hd g) kp,
          projBiasMask hd (groupHeads hd g) kp⟩)).getD j 1 = 0
        ↔ kp (j / hd) = false :=
      fun w => projBiasMask_zero_iff hd (groupHeads hd g) kp j hj'
    exact ⟨(hzb g.q).trans (hmem j hj').symm, (hzb g.k).trans (hmem j hj').symm,
      (hzb g.v).trans (hmem j hj').symm⟩
  · intro c hc
    have hc' : c < groupHeads hd g * hd := by
      rw [hmul]
      exact hc
    have h1 : isZeroCol (denseWeightMask g.o.weight.length
          (projBiasMask hd (groupHeads hd g) kp)) c
        ↔ (projBiasMask hd (groupHeads hd g) kp).getD c 1 = 0 :=
      isZeroCol_denseWeightMask g.o.weight.length _ c hor
    exact h1.trans ((projBiasMask_zero_iff hd (groupHeads hd g) kp c hc').trans
      (hmem c hc').symm)
  · intro x hx
    exact List.eq_of_mem_replicate hx

/--
**C1 (code bug).** The claim describes the masks in place after every
`update_mask` call.  In the source no per-layer `update_mask` call ever
builds or applies a mask: with any group present it raises the `TypeError`
inside `_calc_mask` (the masker's required `wrapper` argument is never
passed) and leaves every wrapper untouched (first conjunct).  The claimed
structure is exactly what the masker's own mask construction
(`get_mask_by_importance_ranking`, had the call reached it) produces: at
the concrete two-head group the built masks zero exactly the selected
heads' rows and the matching output-projection columns, with the
output-projection bias mask all ones (second conjunct) — the claim matches
the masker and the spec, and the call wiring is the slip.
-/
theorem update_mask_never_builds_masks :
    (∀ (numIterations : ℕ) (g : WeightGroup) (gs : List WeightGroup),
      update_mask numIterations (g :: gs) = (.error calcMaskTypeError, g :: gs))
    ∧ headStructured 1
        (applyMasks gTwo (get_mask_by_importance_ranking .l1_weight 1 gTwo 1))
        (selectedHeads .l1_weight 1 gTwo 1) :=
  ⟨fun _ _ _ => rfl, get_mask_structural .l1_weight 1 1 gTwo (by decide)⟩

/-! ## Counting pruned heads (C2) -/

theorem countP_getD_range {α : Type} (d : α) (p : α → Bool) (l : List α) :
    (List.range l.length).countP (fun i => p (l.getD i d)) = l.countP p := by
  induction l using List.reverseRecOn with
  | nil => rfl
  | append_singleton xs x ih =>
    rw [List.length_append, List.length_singleton, List.range_succ,
      List.countP_append, List.countP_append]
    congr 1
    · rw [← ih]
      apply List.countP_congr
      intro i hi
      have hilt : i < xs.length := List.mem_range.mp hi
      rw [List.getD_eq_getElem?_getD, List.getD_eq_getElem?_getD,
        List.getElem?_append_left hilt]
    · simp only [List.countP_cons, List.countP_nil]
      congr 1
      rw [List.getD_eq_getElem?_getD, List.getElem?_append_right (le_refl _)]
      simp

theorem countP_le_getElem_sorted (sl : List ℚ) (hs : List.Sorted (· ≤ ·) sl)
    (hnd : sl.Nodup) (k : ℕ) (hk : k < sl.length) :
    sl.countP (fun x => decide (x ≤ sl[k])) = k + 1 := by
  obtain ⟨t, ht⟩ : ∃ t, sl[k] = t := ⟨_, rfl⟩
  rw [ht]
  have hlen : (sl.take (k + 1)).length = k + 1 := by
    rw [List.length_take]
    omega
  have h1 : (sl.take (k + 1)).countP (fun x => decide (x ≤ t)) = k + 1 := by
    have hall : ∀ a ∈ sl.take (k + 1), (fun x => decide (x ≤ t)) a = true := by
      intro a ha
      obtain ⟨i, hi, rfl⟩ := List.mem_iff_getElem.mp ha
      have hik : i < k + 1 := by
        rw [hlen] at hi
        exact hi
      rw [List.getElem_take]
      refine decide_eq_true (ht ▸ ?_)
      rcases Nat.lt_succ_iff_lt_or_eq.mp hik with h | h
      · exact List.pairwise_iff_getElem.mp hs i k (by omega) hk h
      · subst h
        exact le_rfl
    rw [List.countP_eq_length.mpr hall, hlen]
  have h2 : (sl.drop (k + 1)).countP (fun x => decide (x ≤ t)) = 0 := by
    rw [List.countP_eq_zero]
    intro a ha
    obtain ⟨i, hi, rfl⟩ := List.mem_iff_getElem.mp ha
    have hi' : k + 1 + i < sl.length := by
      rw [List.length_drop] at hi
      omega
    rw [List.getElem_drop]
    have hlt : t < sl[k + 1 + i] := by
      rw [← ht]
      apply lt_of_le_of_ne
      · exact List.pairwise_iff_getElem.mp hs k (k + 1 + i) hk hi' (by omega)
      · intro hcon
        have := (List.Nodup.getElem_inj_iff hnd).mp hcon
        omega
    simp [not_le.mpr hlt]
  conv_lhs => rw [← List.take_append_drop (k + 1) sl]
  rw [List.countP_append, h1, h2]

/-- With pairwise-distinct values, exactly `k` list entries lie at or below
the `k`-th smallest value. -/
theorem countP_le_kthSmallest (l : Vec) (hnd : l.Nodup) (k : ℕ)
    (h1 : 1 ≤ k) (h2 : k ≤ l.length) :
    l.countP (fun x => decide (x ≤ kthSmallest l k)) = k := by
  have hperm : List.Perm (l.insertionSort (· ≤ ·)) l := List.perm_insertionSort _ l
  have hs : List.Sorted (· ≤ ·) (l.insertionSort (· ≤ ·)) :=
    List.sorted_insertionSort _ l
  have hnd' : (l.insertionSort (· ≤ ·)).Nodup := hperm.nodup_iff.mpr hnd
  have hlen : (l.insertionSort (· ≤ ·)).length = l.length := hperm.length_eq
  have hk : k - 1 < (l.insertionSort (· ≤ ·)).length := by omega
  have ht : kthSmallest l k = (l.insertionSort (· ≤ ·)).get ⟨k - 1, hk⟩ := by
    rw [kthSmallest, List.get_eq_getElem]
    exact List.getD_eq_getElem _ _ hk
  rw [← hperm.countP_eq, ht, List.get_eq_getElem,
    countP_le_getElem_sorted _ hs hnd' (k - 1) hk]
  omega

theorem card_filter_range (n : ℕ) (p : ℕ → Bool) :
    ((Finset.range n).filter (fun i => p i = true)).card
      = (List.range n).countP p := by
  induction n with
  | zero => rfl
  | succ m ih =>
    rw [Finset.range_succ, Finset.filter_insert, List.range_succ,
      List.countP_append]
    cases hp : p m
    · simp only [hp, Bool.false_eq_true, if_false, ih, List.countP_cons,
        List.countP_nil, hp]
      simp
    · rw [if_pos rfl, Finset.card_insert_of_not_mem (by simp)]
      simp only [ih, List.countP_cons, List.countP_nil, hp, if_pos]

theorem selectedHeads_card (crit : WeightCriterion) (hd : ℕ) (g : WeightGroup)
    (np : ℕ) (hnd : (importanceScores crit hd g).Nodup)
    (h1 : 1 ≤ np) (h2 : np ≤ groupHeads hd g) :
    (selectedHeads crit hd g np).card = np := by
  have hlen : (importanceScores crit hd g).length = groupHeads hd g := by
    rw [importanceScores, List.length_map, List.length_range]
  have hstep1 : (selectedHeads crit hd g np).card
      = (List.range (groupHeads hd g)).countP
          (fun i => !keepHead crit hd g np i) := by
    rw [selectedHeads, ← card_filter_range]
    congr 1
    apply Finset.filter_congr
    intro i _
    simp
  rw [hstep1]
  have hstep2 : (List.range (groupHeads hd g)).countP
        (fun i => !keepHead crit hd g np i)
      = (List.range (importanceScores crit hd g).length).countP
          (fun i => decide ((importanceScores crit hd g).getD i 0
            ≤ kthSmallest (importanceScores crit hd g) np)) := by
    rw [hlen]
    apply List.countP_congr
    intro i _
    simp [keepHead, pruneThreshold, not_lt]
  rw [hstep2]
  have hgr := countP_getD_range (0 : ℚ)
    (fun x => decide (x ≤ kthSmallest (importanceScores crit hd g) np))
    (importanceScores crit hd g)
  rw [hgr, countP_le_kthSmallest (importanceScores crit hd g) hnd np h1 (hlen ▸ h2)]

/--
**C2 (code bug).** The claim says a single per-layer `update_mask` call
prunes `⌊h·s⌋` heads in a layer of `h` heads.  The formula's ingredients
are in the source (`num_prune = int(num_total * sparsity)` in
`_get_current_state`, the lowest-`num_prune` selection in the masker), but
a per-layer call never reaches them: `update_mask` raises the `TypeError`
inside `_calc_mask` and prunes nothing.  At the concrete layer of two
heads with sparsity `1/2`: the claim demands `⌊2 · 1/2⌋ = 1` pruned head,
the call errors with no wrapper touched and zero heads masked (conjuncts
1-3), while the masker's selection stage itself, had it been reached with
that prune count, would have selected exactly one head (conjunct 4).
-/
theorem per_layer_prune_count_unrealized :
    update_mask 1 [gTwo] = (.error calcMaskTypeError, [gTwo])
      ∧ prunedHeadSetOf 1 gTwo.q = ∅
      ∧ (⌊(groupHeads 1 gTwo : ℚ) * gTwo.q.sparsity⌋).toNat = 1
      ∧ (selectedHeads .l1_weight 1 gTwo 1).card = 1 := by
  refine ⟨rfl, by decide, ?_, ?_⟩
  · norm_num [groupHeads, numHeadsOf, gTwo]
  · have hnd : (importanceScores .l1_weight 1 gTwo).Nodup := by
      norm_num [importanceScores, headScore, headWeights, gTwo, groupHeads,
        numHeadsOf, List.range_succ]
    exact selectedHeads_card .l1_weight 1 gTwo 1 hnd le_rfl (by decide)

/-! ## Global ranking totals (C3) -/

theorem map_getD_range {α β : Type} (d : α) (f : α → β) (l : List α) :
    (List.range l.length).map (fun i => f (l.getD i d)) = l.map f := by
  induction l with
  | nil => rfl
  | cons a l ih =>
    rw [List.length_cons, List.range_succ_eq_map, List.map_cons, List.map_map,
      List.map_cons]
    refine congrArg₂ List.cons rfl ?_
    rw [← ih]
    exact List.map_congr_left fun i _ => by
      simp [Function.comp, List.getD_cons_succ]

theorem length_pooledHeads (hd : ℕ) (groups : List WeightGroup) :
    (pooledHeads hd groups).length = nHeadsTotal hd groups := by
  rw [pooledHeads, List.length_flatMap, nHeadsTotal]
  have hcomp : (List.length ∘ fun gi : ℕ =>
      (List.range (groupHeads hd (groups.getD gi default))).map (fun i => (gi, i)))
      = fun gi => groupHeads hd (groups.getD gi default) := by
    funext gi
    simp
  rw [hcomp]
  exact congrArg List.sum (map_getD_range default (groupHeads hd) groups)

theorem nodup_pooledHeads (hd : ℕ) (groups : List WeightGroup) :
    (pooledHeads hd groups).Nodup := by
  rw [pooledHeads, List.nodup_flatMap]
  constructor
  · intro gi _
    exact (List.nodup_range _).map (fun a b h => by simpa using h)
  · rw [List.pairwise_iff_getElem]
    intro a b ha hb hab
    have hA : (List.range groups.length)[a] = a := by simp
    have hB : (List.range groups.length)[b] = b := by simp
    rw [Function.onFun, hA, hB]
    intro x hx hy
    rw [List.mem_map] at hx hy
    obtain ⟨i, _, rfl⟩ := hx
    obtain ⟨j, _, hji⟩ := hy
    injection hji with h1 h2
    omega

theorem mem_pooledHeads (hd : ℕ) (groups : List WeightGroup) (p : ℕ × ℕ) :
    p ∈ pooledHeads hd groups
      ↔ p.1 < groups.length ∧ p.2 < groupHeads hd (groups.getD p.1 default) := by
  rw [pooledHeads, List.mem_flatMap]
  constructor
  · rintro ⟨gi, hgi, hp⟩
    rw [List.mem_map] at hp
    obtain ⟨i, hi, rfl⟩ := hp
    exact ⟨List.mem_range.mp hgi, List.mem_range.mp hi⟩
  · rintro ⟨h1, h2⟩
    exact ⟨p.1, List.mem_range.mpr h1,
      List.mem_map.mpr ⟨p.2, List.mem_range.mpr h2, rfl⟩⟩

theorem globalChosen_sublist_pooled (hd : ℕ) (sc : ℕ × ℕ → ℚ)
    (groups : List WeightGroup) (n : ℕ) (p : ℕ × ℕ)
    (hp : p ∈ globalChosen hd sc groups n) : p ∈ pooledHeads hd groups := by
  rw [globalChosen] at hp
  exact (List.perm_insertionSort _ _).mem_iff.mp (List.mem_of_mem_take hp)

theorem globalChosen_nodup (hd : ℕ) (sc : ℕ × ℕ → ℚ)
    (groups : List WeightGroup) (n : ℕ) : (globalChosen hd sc groups n).Nodup :=
  ((List.take_sublist _ _).nodup
    ((List.perm_insertionSort _ _).nodup_iff.mpr (nodup_pooledHeads hd groups)))

theorem globalChosen_length (hd : ℕ) (sc : ℕ × ℕ → ℚ)
    (groups : List WeightGroup) (n : ℕ) (hn : n ≤ nHeadsTotal hd groups) :
    (globalChosen hd sc groups n).length = n := by
  rw [globalChosen, List.length_take, (List.perm_insertionSort _ _).length_eq,
    length_pooledHeads]
  omega

theorem countP_fst_sum (G : ℕ) (l : List (ℕ × ℕ)) (h : ∀ p ∈ l, p.1 < G) :
    (∑ gi ∈ Finset.range G, l.countP (fun p => p.1 == gi)) = l.length := by
  induction l with
  | nil => simp
  | cons a l ih =>
    simp only [List.countP_cons, List.length_cons]
    rw [Finset.sum_add_distrib, ih (fun p hp => h p (List.mem_cons_of_mem a hp))]
    have ha : a.1 ∈ Finset.range G :=
      Finset.mem_range.mpr (h a (List.mem_cons_self a l))
    have hsum : (∑ gi ∈ Finset.range G, if (a.1 == gi) = true then 1 else 0) = 1 := by
      simp only [beq_iff_eq]
      rw [Finset.sum_ite_eq (Finset.range G) a.1 (fun _ => 1), if_pos ha]
    rw [hsum]

theorem countP_fst_le_of_nodup (l : List (ℕ × ℕ)) (hnd : l.Nodup) (gi H : ℕ)
    (h : ∀ p ∈ l, p.1 = gi → p.2 < H) :
    l.countP (fun p => p.1 == gi) ≤ H := by
  rw [List.countP_eq_length_filter]
  have hfn : (l.filter (fun p => p.1 == gi)).Nodup := hnd.filter _
  have hmap : ((l.filter (fun p => p.1 == gi)).map Prod.snd).Nodup := by
    refine List.Nodup.map_on ?_ hfn
    intro x hx y hy hxy
    have hx1 : x.1 = gi := by simpa using List.of_mem_filter hx
    have hy1 : y.1 = gi := by simpa using List.of_mem_filter hy
    exact Prod.ext (hx1.trans hy1.symm) hxy
  have hsub : ((l.filter (fun p => p.1 == gi)).map Prod.snd).toFinset
      ⊆ Finset.range H := by
    intro x hx
    rw [List.mem_toFinset, List.mem_map] at hx
    obtain ⟨p, hp, rfl⟩ := hx
    have hp1 : p.1 = gi := by simpa using List.of_mem_filter hp
    exact Finset.mem_range.mpr (h p (List.mem_of_mem_filter hp) hp1)
  calc (l.filter (fun p => p.1 == gi)).length
      = ((l.filter (fun p => p.1 == gi)).map Prod.snd).length :=
        (List.length_map _ _).symm
    _ = ((l.filter (fun p => p.1 == gi)).map Prod.snd).toFinset.card :=
        (List.toFinset_card_of_nodup hmap).symm
    _ ≤ (Finset.range H).card := Finset.card_le_card hsub
    _ = H := Finset.card_range H

/--
**C3.** Global mode with `num_iterations = 1`: the number of heads removed,
summed across all groups, equals `⌊total_heads · overall_sparsity⌋`
(`n_heads_to_prune` as `_calc_mask_global` computes it), and every group's
removed-head count is at most its own head count (and at least 0, being a
natural number).  Holds for any pooled scoring function `sc`.
-/
theorem global_prune_totals (hd : ℕ) (sc : ℕ × ℕ → ℚ)
    (groups : List WeightGroup)
    (hs0 : 0 ≤ (groups.headD default).q.sparsity)
    (hs1 : (groups.headD default).q.sparsity < 1) :
    (∑ gi ∈ Finset.range groups.length,
        globalPrunedCount hd sc groups (nHeadsToPruneGlobal hd 1 groups).toNat gi)
        = (⌊(nHeadsTotal hd groups : ℚ)
            * (groups.headD default).q.sparsity⌋).toNat
      ∧ ∀ gi, globalPrunedCount hd sc groups
            (nHeadsToPruneGlobal hd 1 groups).toNat gi
          ≤ groupHeads hd (groups.getD gi default) := by
  have hx0 : 0 ≤ (nHeadsTotal hd groups : ℚ)
      * ((groups.headD default).q.sparsity / ((1 : ℕ) : ℚ)) := by
    refine mul_nonneg (Nat.cast_nonneg _) ?_
    rw [Nat.cast_one, div_one]
    exact hs0
  have hfl : nHeadsToPruneGlobal hd 1 groups
      = ⌊(nHeadsTotal hd groups : ℚ) * (groups.headD default).q.sparsity⌋ := by
    rw [nHeadsToPruneGlobal, pyInt, if_pos hx0, Nat.cast_one, div_one]
  have hn_le : (nHeadsToPruneGlobal hd 1 groups).toNat ≤ nHeadsTotal hd groups := by
    rw [hfl]
    have hle : ⌊(nHeadsTotal hd groups : ℚ)
        * (groups.headD default).q.sparsity⌋ ≤ (nHeadsTotal hd groups : ℤ) := by
      have h1 : (nHeadsTotal hd groups : ℚ) * (groups.headD default).q.sparsity
          ≤ (nHeadsTotal hd groups : ℚ) := by
        calc (nHeadsTotal hd groups : ℚ) * (groups.headD default).q.sparsity
            ≤ (nHeadsTotal hd groups : ℚ) * 1 :=
              mul_le_mul_of_nonneg_left (le_of_lt hs1) (Nat.cast_nonneg _)
          _ = (nHeadsTotal hd groups : ℚ) := mul_one _
      calc ⌊(nHeadsTotal hd groups : ℚ) * (groups.headD default).q.sparsity⌋
          ≤ ⌊(nHeadsTotal hd groups : ℚ)⌋ := Int.floor_le_floor h1
        _ = (nHeadsTotal hd groups : ℤ) := Int.floor_natCast _
    omega
  have hmem : ∀ p ∈ globalChosen hd sc groups
      (nHeadsToPruneGlobal hd 1 groups).toNat,
      p.1 < groups.length ∧ p.2 < groupHeads hd (groups.getD p.1 default) :=
    fun p hp => (mem_pooledHeads hd groups p).mp
      (globalChosen_sublist_pooled hd sc groups _ p hp)
  constructor
  · simp only [globalPrunedCount]
    rw [countP_fst_sum groups.length _ (fun p hp => (hmem p hp).1),
      globalChosen_length hd sc groups _ hn_le, hfl]
  · intro gi
    refine countP_fst_le_of_nodup _ (globalChosen_nodup hd sc groups _) gi _ ?_
    intro p hp hp1
    have := (hmem p hp).2
    rwa [hp1] at this

theorem global_prune_totals_witness :
    (0 : ℚ) ≤ ([gTwo, gDeg].headD default).q.sparsity
      ∧ (∑ gi ∈ Finset.range ([gTwo, gDeg] : List WeightGroup).length,
          globalPrunedCount 1 (fun p => (p.2 : ℚ)) [gTwo, gDeg]
            (nHeadsToPruneGlobal 1 1 [gTwo, gDeg]).toNat gi)
          = (⌊(nHeadsTotal 1 [gTwo, gDeg] : ℚ)
              * ([gTwo, gDeg].headD default).q.sparsity⌋).toNat := by
  constructor
  · norm_num [gTwo]
  · exact (global_prune_totals 1 (fun p => (p.2 : ℚ)) [gTwo, gDeg]
      (by norm_num [gTwo]) (by norm_num [gTwo])).1
